import Mathlib

/-!
Verification of the payroll-sync backend: a shallow embedding of the
credential vault (utils/encryption.js), the login handler
(controllers/authController.js) and the Finch sync engine
(controllers/finchController.js), with theorems settling the frozen
claims about them.

Strings from the JavaScript side are modelled as List Char where the
byte-level structure matters (hex envelopes) and as String elsewhere;
JavaScript null/undefined is Option.none; a JavaScript value that can be
a thrown exception is an Except.
-/

/-! ## Credential vault (utils/encryption.js)

The AES-256-CBC core (crypto.createCipheriv / createDecipheriv) is a
platform primitive, not code of this repository; it is abstracted as a
pair of functions, keyed and IV-indexed, producing hex text. The code of
the repository around it - the falsy guard, the random IV, the hex
encoding of the IV, the colon-separated envelope and its re-parsing - is
embedded faithfully below.
-/

/-- Lowercase hex digit character of a nibble, as Buffer hex encoding
emits: code 48 onward for the decimal digits, code 87 plus the value for
the letters. -/
def hexDigit (n : Nat) : Char :=
  if n < 10 then Char.ofNat (48 + n) else Char.ofNat (87 + n)

/-- Numeric value of a hex digit character, none when the character is not
a hex digit; mirrors the per-character acceptance of Buffer.from with the
hex encoding, which accepts both cases. -/
def hexVal (c : Char) : Option Nat :=
  if 48 ≤ c.toNat ∧ c.toNat ≤ 57 then some (c.toNat - 48)
  else if 97 ≤ c.toNat ∧ c.toNat ≤ 102 then some (c.toNat - 87)
  else if 65 ≤ c.toNat ∧ c.toNat ≤ 70 then some (c.toNat - 55)
  else none

/-- Hex encoding of a byte list: two lowercase digits per byte
(Buffer.prototype.toString with the hex encoding). -/
def hexOfBytes : List Nat → List Char
  | [] => []
  | b :: bs => hexDigit (b / 16) :: hexDigit (b % 16) :: hexOfBytes bs

/-- Hex decoding of a character list into bytes; decoding stops at the
first pair containing a non-hex character and drops a trailing unpaired
character, as Buffer.from with the hex encoding does. -/
def bytesOfHex : List Char → List Nat
  | h :: l :: rest =>
    match hexVal h, hexVal l with
    | some a, some b => (16 * a + b) :: bytesOfHex rest
    | _, _ => []
  | _ => []

/-- JavaScript String.prototype.split with a one-character separator:
always returns at least one part, parts do not contain the separator. -/
def splitOnChar (sep : Char) : List Char → List (List Char)
  | [] => [[]]
  | c :: cs =>
    match splitOnChar sep cs with
    | [] => [[c]]
    | p :: ps => if c = sep then [] :: p :: ps else (c :: p) :: ps

/-- JavaScript Array.prototype.join with a one-character separator. -/
def joinWithChar (sep : Char) : List (List Char) → List Char
  | [] => []
  | [p] => p
  | p :: q :: ps => p ++ sep :: joinWithChar sep (q :: ps)

/-- encrypt from utils/encryption.js: falsy input (null or the empty
string) returns null; otherwise the envelope is the hex of the random IV,
a colon, and the hex ciphertext produced by the cipher core enc under the
process key. -/
def encrypt (enc : List Nat → List Nat → List Char → List Char)
    (key iv : List Nat) : Option (List Char) → Option (List Char)
  | none => none
  | some t => if t = [] then none else some (hexOfBytes iv ++ ':' :: enc key iv t)

/-- decrypt from utils/encryption.js: falsy input returns null; otherwise
the text is split on colons, the first part is hex-decoded into the IV
(parts.shift), the remaining parts are re-joined with colons and handed to
the decipher core dec under the process key. -/
def decrypt (dec : List Nat → List Nat → List Char → List Char)
    (key : List Nat) : Option (List Char) → Option (List Char)
  | none => none
  | some t =>
    if t = [] then none
    else
      match splitOnChar ':' t with
      | [] => none
      | ivHex :: rest => some (dec key (bytesOfHex ivHex) (joinWithChar ':' rest))

/-- The process-wide key material as hex text: the environment variable
when present and non-empty, else the hard-coded fallback of 64 zero
characters (the expression process.env.ENCRYPTION_KEY with a zero-repeat
fallback). -/
def encryptionKeyHex (envKey : Option (List Char)) : List Char :=
  match envKey with
  | some s => if s = [] then List.replicate 64 '0' else s
  | none => List.replicate 64 '0'

/-- ENCRYPTION_KEY from utils/encryption.js: the hex-decoded key bytes. -/
def encryptionKey (envKey : Option (List Char)) : List Nat :=
  bytesOfHex (encryptionKeyHex envKey)

lemma hexVal_hexDigit (n : Nat) (h : n < 16) : hexVal (hexDigit n) = some n := by
  interval_cases n <;> decide

lemma hexDigit_ne_colon (n : Nat) (h : n < 16) : hexDigit n ≠ ':' := by
  interval_cases n <;> decide

lemma bytesOfHex_hexOfBytes (bs : List Nat) (h : ∀ b ∈ bs, b < 256) :
    bytesOfHex (hexOfBytes bs) = bs := by
  induction bs with
  | nil => rfl
  | cons b bs ih =>
    have hb : b < 256 := h b (List.mem_cons_self b bs)
    have hd : b / 16 < 16 := by omega
    have hm : b % 16 < 16 := by omega
    have ih2 := ih (fun x hx => h x (List.mem_cons_of_mem b hx))
    simp only [hexOfBytes, bytesOfHex, hexVal_hexDigit _ hd, hexVal_hexDigit _ hm, ih2]
    congr 1
    omega

lemma colon_not_mem_hexOfBytes (bs : List Nat) (h : ∀ b ∈ bs, b < 256) :
    ':' ∉ hexOfBytes bs := by
  induction bs with
  | nil => simp [hexOfBytes]
  | cons b bs ih =>
    have hb : b < 256 := h b (List.mem_cons_self b bs)
    have ih2 := ih (fun x hx => h x (List.mem_cons_of_mem b hx))
    simp only [hexOfBytes, List.mem_cons]
    push_neg
    exact ⟨(hexDigit_ne_colon (b / 16) (by omega)).symm,
           (hexDigit_ne_colon (b % 16) (by omega)).symm, ih2⟩

lemma splitOnChar_ne_nil (sep : Char) (l : List Char) : splitOnChar sep l ≠ [] := by
  cases l with
  | nil => simp [splitOnChar]
  | cons c cs =>
    unfold splitOnChar
    cases splitOnChar sep cs with
    | nil => simp
    | cons p ps => by_cases h : c = sep <;> simp [h]

lemma splitOnChar_not_mem (sep : Char) (l : List Char) (h : sep ∉ l) :
    splitOnChar sep l = [l] := by
  induction l with
  | nil => rfl
  | cons c cs ih =>
    have hc : c ≠ sep := fun e => h (e ▸ List.mem_cons_self c cs)
    have ih2 := ih (fun hx => h (List.mem_cons_of_mem c hx))
    simp [splitOnChar, ih2, hc]

lemma splitOnChar_append (sep : Char) (a b : List Char) (ha : sep ∉ a) :
    splitOnChar sep (a ++ sep :: b) = a :: splitOnChar sep b := by
  induction a with
  | nil =>
    simp only [List.nil_append, splitOnChar]
    cases hs : splitOnChar sep b with
    | nil => exact absurd hs (splitOnChar_ne_nil sep b)
    | cons p ps => simp
  | cons c a ih =>
    have hc : c ≠ sep := fun e => ha (e ▸ List.mem_cons_self c a)
    have ih2 := ih (fun hx => ha (List.mem_cons_of_mem c hx))
    have ih3 : splitOnChar sep (a.append (sep :: b)) = a :: splitOnChar sep b := ih2
    simp only [List.cons_append, splitOnChar, ih3]
    simp [hc]

/-- Claim C7: for every non-empty plaintext, decrypting the envelope
produced by encrypt returns the original plaintext. The cipher core is
abstracted: the hypotheses state, at the instance used, exactly what
AES-256-CBC with hex output provides - byte-valued IV, colon-free hex
ciphertext, and the decipher inverting the cipher under the same key and
IV. -/
theorem encrypt_decrypt_roundtrip
    (enc dec : List Nat → List Nat → List Char → List Char)
    (key iv : List Nat) (x : List Char)
    (hx : x ≠ [])
    (hiv : ∀ b ∈ iv, b < 256)
    (hhex : ':' ∉ enc key iv x)
    (hinv : dec key iv (enc key iv x) = x) :
    decrypt dec key (encrypt enc key iv (some x)) = some x := by
  have henv : hexOfBytes iv ++ ':' :: enc key iv x ≠ [] := by
    cases h : hexOfBytes iv <;> simp [h]
  have hsplit : splitOnChar ':' (hexOfBytes iv ++ ':' :: enc key iv x)
      = hexOfBytes iv :: [enc key iv x] := by
    rw [splitOnChar_append ':' _ _ (colon_not_mem_hexOfBytes iv hiv),
        splitOnChar_not_mem ':' _ hhex]
  simp only [encrypt, if_neg hx, decrypt, if_neg henv, hsplit,
    joinWithChar, bytesOfHex_hexOfBytes iv hiv, hinv]

/-- Witness for claim C7 at a concrete cipher instance and plaintext. -/
theorem encrypt_decrypt_roundtrip_witness :
    decrypt (fun _ _ _ => ['h', 'i']) [7]
      (encrypt (fun _ _ _ => ['d', 'e']) [7] [171, 205] (some ['h', 'i']))
      = some ['h', 'i'] :=
  encrypt_decrypt_roundtrip (fun _ _ _ => ['d', 'e']) (fun _ _ _ => ['h', 'i'])
    [7] [171, 205] ['h', 'i'] (by decide) (by decide) (by decide) rfl

/-- Claim C8 counterexample: with the key environment variable absent, the
module does not fail; it substitutes the hard-coded default of 64 zero hex
characters, yielding the all-zero 32-byte key, and encryption proceeds
under that default key, returning a ciphertext envelope. -/
theorem absent_key_uses_default_key :
    encryptionKey none = List.replicate 32 0 ∧
    encryptionKey (some []) = List.replicate 32 0 ∧
    (encrypt (fun _ _ _ => ['a', 'b']) (encryptionKey none) [0]
      (some ['x'])).isSome = true := by
  refine ⟨by decide, by decide, rfl⟩

/-- Claim C8 amended: when the process-wide key environment variable is
absent or empty, the module substitutes the hard-coded default key (64
zero hex characters, decoding to 32 zero bytes) and proceeds; no startup
failure exists in the module. -/
theorem absent_key_defaults_to_zero_key (envKey : Option (List Char))
    (h : envKey = none ∨ envKey = some []) :
    encryptionKey envKey = List.replicate 32 0 := by
  rcases h with h | h <;> subst h <;> decide

/-- Witness for the amended claim C8 at the absent-key input. -/
theorem absent_key_defaults_to_zero_key_witness :
    encryptionKey none = List.replicate 32 0 :=
  absent_key_defaults_to_zero_key none (Or.inl rfl)

/-- Claim C10: encrypt maps null and the empty string to null, decrypt
maps null to null, and the round-trip on the empty string yields null
rather than the empty string, so the round-trip is the identity only on
non-empty inputs. -/
theorem encrypt_decrypt_null_fixed_points
    (enc dec : List Nat → List Nat → List Char → List Char) (key iv : List Nat) :
    encrypt enc key iv none = none ∧
    encrypt enc key iv (some []) = none ∧
    decrypt dec key none = none ∧
    decrypt dec key (encrypt enc key iv (some [])) = none :=
  ⟨rfl, rfl, rfl, rfl⟩

/-! ## Login (controllers/authController.js)

The handler is embedded as a pure function of the taxpayer table and the
request credentials. The database lookup by email is a find over the
table; the hard-coded demo password map and the falsy checks on the
request fields are taken verbatim from the source.
-/

/-- A row of the taxpayers table as the login query selects it. -/
structure UserRow where
  taxpayerId : Nat
  email : String
  role : Option String
  deriving DecidableEq, Repr

/-- Outcome of the login handler: HTTP 400, HTTP 401, or a 200 response
carrying a signed token for the given user id and role. -/
inductive LoginOutcome
  | badRequest
  | invalidCredentials
  | success (userId : Nat) (role : String)
  deriving DecidableEq, Repr

/-- The hard-coded demo password map from the login handler. -/
def validPasswords (email : String) : Option String :=
  if email = "admin@tax.com" then some "admin123"
  else if email = "preparer@tax.com" then some "preparer123"
  else if email = "taxpayer@tax.com" then some "taxpayer123"
  else none

/-- login from controllers/authController.js: missing (falsy) email or
password is a 400; an unknown email is a 401; an email in the demo map
with a mismatched password is a 401; otherwise a token is issued with the
database role, defaulting to taxpayer. -/
def login (db : List UserRow) (email password : String) : LoginOutcome :=
  if email = "" ∨ password = "" then LoginOutcome.badRequest
  else
    match db.find? (fun u => u.email == email) with
    | none => LoginOutcome.invalidCredentials
    | some user =>
      match validPasswords email with
      | some expected =>
        if password ≠ expected then LoginOutcome.invalidCredentials
        else LoginOutcome.success user.taxpayerId (user.role.getD "taxpayer")
      | none => LoginOutcome.success user.taxpayerId (user.role.getD "taxpayer")

/-- Claim C9: for a registered user (a row with the given email exists;
registration guarantees the email is non-empty) whose email is not one of
the three hard-coded demo emails, login succeeds and issues a token for
any non-empty password: the stored password hash is never consulted. -/
theorem login_skips_password_check_for_non_demo_emails
    (db : List UserRow) (email password : String)
    (he : email ≠ "") (hp : password ≠ "")
    (hd1 : email ≠ "admin@tax.com") (hd2 : email ≠ "preparer@tax.com")
    (hd3 : email ≠ "taxpayer@tax.com")
    (hreg : ∃ u ∈ db, u.email = email) :
    ∃ uid role, login db email password = LoginOutcome.success uid role := by
  obtain ⟨u, hu, hue⟩ := hreg
  have hfind : (db.find? (fun u => u.email == email)).isSome := by
    rw [List.find?_isSome]
    exact ⟨u, hu, by simp [hue]⟩
  obtain ⟨v, hv⟩ := Option.isSome_iff_exists.mp hfind
  have hvp : validPasswords email = none := by
    simp [validPasswords, hd1, hd2, hd3]
  refine ⟨v.taxpayerId, v.role.getD "taxpayer", ?_⟩
  simp [login, he, hp, hv, hvp]

/-- Witness for claim C9: a registered non-demo user logs in with an
arbitrary non-empty password. -/
theorem login_skips_password_check_witness :
    ∃ uid role,
      login [{ taxpayerId := 1, email := "user@x.com", role := none }]
        "user@x.com" "anything" = LoginOutcome.success uid role :=
  login_skips_password_check_for_non_demo_emails
    [{ taxpayerId := 1, email := "user@x.com", role := none }]
    "user@x.com" "anything" (by decide) (by decide) (by decide) (by decide)
    (by decide) ⟨{ taxpayerId := 1, email := "user@x.com", role := none }, by decide⟩

/-! ## Finch sync engine (controllers/finchController.js)

syncFinchPayrollData is embedded as a pure state transformer. Its inputs
are the outcome of the directory fetch and, per identifier, the combined
outcome of the detail fetch plus row upsert (both live inside the same
try block in the source, and a persistence failure leaves the row
unchanged, so one Except per identifier is faithful). The state carries
the job row, the connection row, the employees table and the audit log;
database updates themselves are modelled as succeeding.
-/

/-- Status values written into the sync_jobs table. -/
inductive JobStatus
  | pending
  | processing
  | completed
  | failed
  deriving DecidableEq, Repr

/-- Status values of the connections table. -/
inductive ConnStatus
  | active
  | revoked
  | error
  deriving DecidableEq, Repr

/-- A sync_jobs row, restricted to the columns the sync code touches. -/
structure JobRow where
  status : JobStatus
  recordsProcessed : Nat
  recordsFailed : Nat
  errorMessage : Option String
  completedAt : Option Nat
  deriving DecidableEq, Repr

/-- A connections row, restricted to the columns the sync code touches. -/
structure ConnRow where
  status : ConnStatus
  lastSyncAt : Option Nat
  deriving DecidableEq, Repr

/-- An audit_logs row, restricted to the fields claim C5 is about. -/
structure AuditEvent where
  eventType : String
  metaRecordsProcessed : Option Nat
  metaRecordsFailed : Option Nat
  deriving DecidableEq, Repr

/-- The normalized per-employee payload as the sync loop extracts it from
the detail response (first_name, last_name, first email, hire_date,
employment type) together with the serialized source payload. -/
structure EmployeeData where
  firstName : Option String
  lastName : Option String
  email : Option String
  hireDate : Option String
  employmentStatus : Option String
  sourceData : String
  deriving DecidableEq, Repr

/-- An employees row, restricted to the columns the sync insert names. -/
structure EmployeeRow where
  connectionId : Nat
  providerEmployeeId : String
  firstName : Option String
  lastName : Option String
  email : Option String
  hireDate : Option String
  employmentStatus : Option String
  sourceData : String
  updatedAt : Nat
  deriving DecidableEq, Repr

/-- Natural-key match on (connection_id, provider_employee_id). -/
def employeeKeyMatch (connId : Nat) (pid : String) (r : EmployeeRow) : Bool :=
  r.connectionId == connId && r.providerEmployeeId == pid

/-- The INSERT ... ON CONFLICT (connection_id, provider_employee_id)
DO UPDATE statement of the sync loop: when a row with the natural key
exists, only first_name, last_name, email, employment_status and
updated_at are overwritten; hire_date and source_data keep their stored
values. When no row matches, a full row is inserted. -/
def upsertEmployee (tbl : List EmployeeRow) (connId : Nat) (pid : String)
    (d : EmployeeData) (now : Nat) : List EmployeeRow :=
  if tbl.any (employeeKeyMatch connId pid) then
    tbl.map (fun r =>
      if employeeKeyMatch connId pid r then
        { r with
          firstName := d.firstName,
          lastName := d.lastName,
          email := d.email,
          employmentStatus := d.employmentStatus,
          updatedAt := now }
      else r)
  else
    tbl ++ [{ connectionId := connId, providerEmployeeId := pid,
              firstName := d.firstName, lastName := d.lastName,
              email := d.email, hireDate := d.hireDate,
              employmentStatus := d.employmentStatus,
              sourceData := d.sourceData, updatedAt := now }]

/-- Whether a per-identifier outcome is a success. -/
def exOk {α : Type} : Except String α → Bool
  | Except.ok _ => true
  | Except.error _ => false

/-- One iteration of the per-identifier loop: on success the row is
upserted and records_processed incremented; on any failure (thrown inside
the inner try) records_failed is incremented and iteration continues. The
accumulator is (recordsProcessed, recordsFailed, employees table). -/
def syncStep (connId : Nat) (outcome : String → Except String EmployeeData)
    (now : Nat) (acc : Nat × Nat × List EmployeeRow) (ind : String) :
    Nat × Nat × List EmployeeRow :=
  match outcome ind with
  | Except.ok d => (acc.1 + 1, acc.2.1, upsertEmployee acc.2.2 connId ind d now)
  | Except.error _ => (acc.1, acc.2.1 + 1, acc.2.2)

/-- The mutable rows the background sync touches. -/
structure SyncState where
  job : JobRow
  conn : ConnRow
  employees : List EmployeeRow
  audit : List AuditEvent
  deriving DecidableEq, Repr

/-- syncFinchPayrollData from controllers/finchController.js: a failed
directory fetch escapes to the catch block, which marks the job failed
with the error message; otherwise the loop runs over every identifier,
after which the job is unconditionally marked completed with the two
counters, and the connection row gets last_sync_at set. No audit_logs row
is written on either path. -/
def syncFinchPayrollData (connId : Nat) (dirResult : Except String (List String))
    (outcome : String → Except String EmployeeData) (now : Nat)
    (s : SyncState) : SyncState :=
  match dirResult with
  | Except.error e =>
    { s with
      job := { s.job with
               status := JobStatus.failed,
               errorMessage := some e,
               completedAt := some now } }
  | Except.ok individuals =>
    let res := individuals.foldl (syncStep connId outcome now) (0, 0, s.employees)
    { s with
      job := { s.job with
               status := JobStatus.completed,
               recordsProcessed := res.1,
               recordsFailed := res.2.1,
               completedAt := some now },
      conn := { s.conn with lastSyncAt := some now },
      employees := res.2.2 }

/-- syncFinchData from controllers/finchController.js, the request
handler: the connection lookup (filtered to provider finch and status
active) yields none for a 404; a throw from decrypt on the stored blob
reaches the outer catch before the job insert, yielding a 500 with no job
row; otherwise a job row is created in processing state and the
background task is fired. The handler never updates the connection row.
The result is (HTTP status, created job row, connection row after). -/
def syncFinchData (connRow : Option ConnRow)
    (decryptOutcome : Except String (Option String)) :
    Nat × Option JobRow × Option ConnRow :=
  match connRow with
  | none => (404, none, none)
  | some c =>
    match decryptOutcome with
    | Except.error _ => (500, none, some c)
    | Except.ok _ =>
      (200,
       some { status := JobStatus.processing,
              recordsProcessed := 0,
              recordsFailed := 0,
              errorMessage := none,
              completedAt := none },
       some c)

/-- A fresh sync state: job just created in processing, an active
connection never synced, empty employees table, empty audit log. -/
def initialSyncState : SyncState :=
  { job := { status := JobStatus.processing,
             recordsProcessed := 0,
             recordsFailed := 0,
             errorMessage := none,
             completedAt := none },
    conn := { status := ConnStatus.active, lastSyncAt := none },
    employees := [],
    audit := [] }

lemma syncLoop_counts (connId : Nat) (outcome : String → Except String EmployeeData)
    (now : Nat) (ids : List String) :
    ∀ (p f : Nat) (tbl : List EmployeeRow),
      (ids.foldl (syncStep connId outcome now) (p, f, tbl)).1
        = p + ids.countP (fun i => exOk (outcome i)) ∧
      (ids.foldl (syncStep connId outcome now) (p, f, tbl)).2.1
        = f + ids.countP (fun i => !exOk (outcome i)) := by
  induction ids with
  | nil => intro p f tbl; simp
  | cons i ids ih =>
    intro p f tbl
    cases h : outcome i with
    | ok d =>
      have step : syncStep connId outcome now (p, f, tbl) i
          = (p + 1, f, upsertEmployee tbl connId i d now) := by
        simp [syncStep, h]
      have hok : exOk (outcome i) = true := by simp [exOk, h]
      have e1 : (i :: ids).countP (fun j => exOk (outcome j))
          = ids.countP (fun j => exOk (outcome j)) + 1 := by
        simp [List.countP_cons, hok]
      have e2 : (i :: ids).countP (fun j => !exOk (outcome j))
          = ids.countP (fun j => !exOk (outcome j)) := by
        simp [List.countP_cons, hok]
      have hi := ih (p + 1) f (upsertEmployee tbl connId i d now)
      rw [List.foldl_cons, step, e1, e2]
      exact ⟨by rw [hi.1]; omega, by rw [hi.2]⟩
    | error e =>
      have step : syncStep connId outcome now (p, f, tbl) i = (p, f + 1, tbl) := by
        simp [syncStep, h]
      have hok : exOk (outcome i) = false := by simp [exOk, h]
      have e1 : (i :: ids).countP (fun j => exOk (outcome j))
          = ids.countP (fun j => exOk (outcome j)) := by
        simp [List.countP_cons, hok]
      have e2 : (i :: ids).countP (fun j => !exOk (outcome j))
          = ids.countP (fun j => !exOk (outcome j)) + 1 := by
        simp [List.countP_cons, hok]
      have hi := ih p (f + 1) tbl
      rw [List.foldl_cons, step, e1, e2]
      exact ⟨by rw [hi.1], by rw [hi.2]; omega⟩

lemma countP_ok_add_countP_not {α : Type} (q : α → Bool) (l : List α) :
    l.countP q + l.countP (fun a => !q a) = l.length := by
  induction l with
  | nil => simp
  | cons a l ih =>
    simp only [List.countP_cons, List.length_cons]
    cases h : q a <;> simp [h] <;> omega

/-- Claim C1 counterexample: a directory of one identifier whose detail
fetch fails yields recordsProcessed zero and recordsFailed one, yet the
job is marked completed, not failed. -/
theorem total_failure_not_marked_failed :
    (syncFinchPayrollData 1 (Except.ok ["i1"]) (fun _ => Except.error "boom") 5
      initialSyncState).job.recordsProcessed = 0 ∧
    (syncFinchPayrollData 1 (Except.ok ["i1"]) (fun _ => Except.error "boom") 5
      initialSyncState).job.recordsFailed = 1 ∧
    (syncFinchPayrollData 1 (Except.ok ["i1"]) (fun _ => Except.error "boom") 5
      initialSyncState).job.status = JobStatus.completed ∧
    (syncFinchPayrollData 1 (Except.ok ["i1"]) (fun _ => Except.error "boom") 5
      initialSyncState).job.status ≠ JobStatus.failed :=
  ⟨rfl, rfl, rfl, by decide⟩

/-- Claim C1 amended: when the directory fetch succeeds and every detail
fetch fails, the loop finishes and the job is still marked completed with
recordsProcessed zero and recordsFailed equal to the directory size; the
failed status is reached only when an error escapes the whole try block,
such as a directory fetch failure. -/
theorem total_failure_marked_completed (connId now : Nat) (ids : List String)
    (outcome : String → Except String EmployeeData) (s : SyncState)
    (hall : ∀ i ∈ ids, exOk (outcome i) = false) :
    (syncFinchPayrollData connId (Except.ok ids) outcome now s).job.status
      = JobStatus.completed ∧
    (syncFinchPayrollData connId (Except.ok ids) outcome now s).job.recordsProcessed
      = 0 ∧
    (syncFinchPayrollData connId (Except.ok ids) outcome now s).job.recordsFailed
      = ids.length := by
  have hc := syncLoop_counts connId outcome now ids 0 0 s.employees
  have hz : ids.countP (fun i => exOk (outcome i)) = 0 := by
    rw [List.countP_eq_zero]
    intro i hi
    simp [hall i hi]
  have hn : ids.countP (fun i => !exOk (outcome i)) = ids.length := by
    rw [List.countP_eq_length]
    intro i hi
    simp [hall i hi]
  refine ⟨rfl, ?_, ?_⟩
  · show (ids.foldl (syncStep connId outcome now) (0, 0, s.employees)).1 = 0
    rw [hc.1, hz]
  · show (ids.foldl (syncStep connId outcome now) (0, 0, s.employees)).2.1 = ids.length
    rw [hc.2, hn]
    omega

/-- Witness for the amended claim C1 at a concrete all-failing run. -/
theorem total_failure_marked_completed_witness :
    (syncFinchPayrollData 1 (Except.ok ["i1", "i2"]) (fun _ => Except.error "x") 5
      initialSyncState).job.status = JobStatus.completed ∧
    (syncFinchPayrollData 1 (Except.ok ["i1", "i2"]) (fun _ => Except.error "x") 5
      initialSyncState).job.recordsProcessed = 0 ∧
    (syncFinchPayrollData 1 (Except.ok ["i1", "i2"]) (fun _ => Except.error "x") 5
      initialSyncState).job.recordsFailed = ["i1", "i2"].length :=
  total_failure_marked_completed 1 5 ["i1", "i2"] (fun _ => Except.error "x")
    initialSyncState (by decide)

/-- A concrete normalized employee payload used in concrete runs. -/
def sampleData : EmployeeData :=
  { firstName := some "Ada",
    lastName := some "Lovelace",
    email := some "ada@x.com",
    hireDate := some "2020-01-01",
    employmentStatus := some "employee",
    sourceData := "old-payload" }

/-- A concrete per-identifier outcome map: identifier a succeeds, every
other identifier fails its detail fetch. -/
def mixedOutcome : String → Except String EmployeeData :=
  fun i => if i = "a" then Except.ok sampleData else Except.error "not found"

/-- Claim C2: when the directory fetch succeeds and the per-record
outcome fails for a strict non-empty subset of the identifiers, no
failure aborts the loop: the two counters account for every identifier,
the job ends completed, and recordsProcessed is positive. -/
theorem partial_failure_completes_batch (connId now : Nat) (ids : List String)
    (outcome : String → Except String EmployeeData) (s : SyncState)
    (hok : ∃ i ∈ ids, exOk (outcome i) = true)
    (hfail : ∃ i ∈ ids, exOk (outcome i) = false) :
    (syncFinchPayrollData connId (Except.ok ids) outcome now s).job.status
      = JobStatus.completed ∧
    (syncFinchPayrollData connId (Except.ok ids) outcome now s).job.recordsProcessed
      + (syncFinchPayrollData connId (Except.ok ids) outcome now s).job.recordsFailed
      = ids.length ∧
    0 < (syncFinchPayrollData connId (Except.ok ids) outcome now s).job.recordsProcessed
    ∧
    0 < (syncFinchPayrollData connId (Except.ok ids) outcome now s).job.recordsFailed
    := by
  have hc := syncLoop_counts connId outcome now ids 0 0 s.employees
  have hsum := countP_ok_add_countP_not (fun i => exOk (outcome i)) ids
  have hpos : 0 < ids.countP (fun i => exOk (outcome i)) := by
    obtain ⟨i, hi, hoki⟩ := hok
    exact List.countP_pos_iff.mpr ⟨i, hi, hoki⟩
  have hneg : 0 < ids.countP (fun i => !exOk (outcome i)) := by
    obtain ⟨i, hi, hfi⟩ := hfail
    exact List.countP_pos_iff.mpr ⟨i, hi, by simp [hfi]⟩
  refine ⟨rfl, ?_, ?_, ?_⟩
  · show (ids.foldl (syncStep connId outcome now) (0, 0, s.employees)).1
      + (ids.foldl (syncStep connId outcome now) (0, 0, s.employees)).2.1 = ids.length
    rw [hc.1, hc.2]
    omega
  · show 0 < (ids.foldl (syncStep connId outcome now) (0, 0, s.employees)).1
    rw [hc.1]
    omega
  · show 0 < (ids.foldl (syncStep connId outcome now) (0, 0, s.employees)).2.1
    rw [hc.2]
    omega

/-- Witness for claim C2 on a two-element directory where exactly one
detail fetch fails. -/
theorem partial_failure_completes_batch_witness :
    (syncFinchPayrollData 1 (Except.ok ["a", "b"]) mixedOutcome 7
      initialSyncState).job.status = JobStatus.completed ∧
    (syncFinchPayrollData 1 (Except.ok ["a", "b"]) mixedOutcome 7
      initialSyncState).job.recordsProcessed
      + (syncFinchPayrollData 1 (Except.ok ["a", "b"]) mixedOutcome 7
      initialSyncState).job.recordsFailed = ["a", "b"].length ∧
    0 < (syncFinchPayrollData 1 (Except.ok ["a", "b"]) mixedOutcome 7
      initialSyncState).job.recordsProcessed ∧
    0 < (syncFinchPayrollData 1 (Except.ok ["a", "b"]) mixedOutcome 7
      initialSyncState).job.recordsFailed :=
  partial_failure_completes_batch 1 7 ["a", "b"] mixedOutcome initialSyncState
    ⟨"a", by decide, by decide⟩ ⟨"b", by decide, by decide⟩

/-- Claim C3 counterexample: with an active connection whose stored
credential fails to decrypt (decrypt throws), the handler returns HTTP
500 from its catch block before the job insert ever runs: no job row
exists at all, so no job carries the errorMessage credential error, and
the connection is returned untouched, still active rather than error. -/
theorem credential_error_creates_no_job :
    (syncFinchData (some { status := ConnStatus.active, lastSyncAt := none })
      (Except.error "bad decrypt")).1 = 500 ∧
    (syncFinchData (some { status := ConnStatus.active, lastSyncAt := none })
      (Except.error "bad decrypt")).2.1 = none ∧
    (syncFinchData (some { status := ConnStatus.active, lastSyncAt := none })
      (Except.error "bad decrypt")).2.2
      = some { status := ConnStatus.active, lastSyncAt := none } ∧
    ConnStatus.active ≠ ConnStatus.error :=
  ⟨rfl, rfl, rfl, by decide⟩

/-- Claim C3 amended: when decrypting the stored credential throws, the
decryption happens before the job insert, so the request fails with HTTP
500, no job row is created (hence no failed job with a credential-error
message exists), and the connection row is left entirely unchanged - its
status is never transitioned to error. -/
theorem credential_failure_yields_500_and_no_job (c : ConnRow) (e : String) :
    syncFinchData (some c) (Except.error e) = (500, none, some c) := rfl

/-- Claim C4 counterexample: a run in which one of two detail fetches
fails still ends completed with recordsFailed positive, and last_sync_at
is nevertheless overwritten with the completion time, though it was null
before; the claim says it must be left unchanged in this outcome. -/
theorem lastSyncAt_updated_despite_failures :
    (syncFinchPayrollData 1 (Except.ok ["a", "b"]) mixedOutcome 7
      initialSyncState).job.status = JobStatus.completed ∧
    (syncFinchPayrollData 1 (Except.ok ["a", "b"]) mixedOutcome 7
      initialSyncState).job.recordsFailed = 1 ∧
    (syncFinchPayrollData 1 (Except.ok ["a", "b"]) mixedOutcome 7
      initialSyncState).conn.lastSyncAt = some 7 ∧
    initialSyncState.conn.lastSyncAt = none :=
  ⟨rfl, rfl, rfl, rfl⟩

/-- Claim C4 amended: last_sync_at is overwritten with the completion
time exactly when the sync body runs to the end of the loop - regardless
of recordsFailed, even when every record failed - and is left unchanged
exactly when an error escapes the loop and the catch block marks the job
failed. -/
theorem lastSyncAt_updated_iff_loop_completes (connId now : Nat)
    (dirResult : Except String (List String))
    (outcome : String → Except String EmployeeData) (s : SyncState) :
    (syncFinchPayrollData connId dirResult outcome now s).conn.lastSyncAt
      = match dirResult with
        | Except.ok _ => some now
        | Except.error _ => s.conn.lastSyncAt := by
  cases dirResult <;> rfl

/-- Claim C5 counterexample: a fully successful run reaches the terminal
completed status while the audit log stays empty: zero events of type
sync.completed or sync.failed are written, not exactly one. -/
theorem terminal_transition_writes_no_audit_event :
    (syncFinchPayrollData 1 (Except.ok ["a"]) mixedOutcome 7
      initialSyncState).job.status = JobStatus.completed ∧
    (syncFinchPayrollData 1 (Except.ok ["a"]) mixedOutcome 7
      initialSyncState).audit.countP
      (fun ev => ev.eventType == "sync.completed" || ev.eventType == "sync.failed")
      = 0 :=
  ⟨rfl, rfl⟩

/-- Claim C5 amended: the sync engine writes no audit event at all - on
both the completed and the failed path the audit log is returned exactly
as it was; the only audit event in the integration flow is
integration.connected, written at connection creation. -/
theorem sync_preserves_audit_log (connId now : Nat)
    (dirResult : Except String (List String))
    (outcome : String → Except String EmployeeData) (s : SyncState) :
    (syncFinchPayrollData connId dirResult outcome now s).audit = s.audit := by
  cases dirResult <;> rfl

/-- A stored employee row used in the concrete re-sync runs. -/
def storedRow : EmployeeRow :=
  { connectionId := 1,
    providerEmployeeId := "e1",
    firstName := some "Ada",
    lastName := some "Lovelace",
    email := some "ada@x.com",
    hireDate := some "2020-01-01",
    employmentStatus := some "employee",
    sourceData := "old-payload",
    updatedAt := 0 }

/-- A re-fetched payload for the same natural key with every field
changed. -/
def refreshedData : EmployeeData :=
  { firstName := some "Ada2",
    lastName := some "Lovelace2",
    email := some "ada2@x.com",
    hireDate := some "2021-02-02",
    employmentStatus := some "contractor",
    sourceData := "new-payload" }

/-- Claim C6 counterexample: re-syncing an existing row with a payload
whose hire_date and source payload changed leaves both columns at their
stored values - the DO UPDATE list omits hire_date and source_data - even
though the other mutable fields are overwritten. -/
theorem resync_keeps_stale_hire_date_and_source :
    (upsertEmployee [storedRow] 1 "e1" refreshedData 9).map EmployeeRow.hireDate
      = [some "2020-01-01"] ∧
    (upsertEmployee [storedRow] 1 "e1" refreshedData 9).map EmployeeRow.sourceData
      = ["old-payload"] ∧
    refreshedData.hireDate = some "2021-02-02" ∧
    refreshedData.sourceData = "new-payload" ∧
    (upsertEmployee [storedRow] 1 "e1" refreshedData 9).map EmployeeRow.firstName
      = [some "Ada2"] :=
  ⟨rfl, rfl, rfl, rfl, rfl⟩

/-- Claim C6 amended: on a re-sync of an existing natural key, the upsert
overwrites first_name, last_name, email and employment_status (and
updated_at) with the newly fetched values, but hire_date and the retained
source payload keep their previously stored values; the natural key is
never reassigned, and no row is added or removed. -/
theorem resync_overwrites_only_update_list (tbl : List EmployeeRow)
    (connId : Nat) (pid : String) (d : EmployeeData) (now : Nat)
    (r : EmployeeRow) (hr : r ∈ tbl)
    (hc : r.connectionId = connId) (hp : r.providerEmployeeId = pid) :
    (upsertEmployee tbl connId pid d now).length = tbl.length ∧
    ∃ s ∈ upsertEmployee tbl connId pid d now,
      s.connectionId = r.connectionId ∧
      s.providerEmployeeId = r.providerEmployeeId ∧
      s.firstName = d.firstName ∧
      s.lastName = d.lastName ∧
      s.email = d.email ∧
      s.employmentStatus = d.employmentStatus ∧
      s.hireDate = r.hireDate ∧
      s.sourceData = r.sourceData ∧
      s.updatedAt = now := by
  have hkey : employeeKeyMatch connId pid r = true := by
    simp [employeeKeyMatch, hc, hp]
  have hmem : tbl.any (employeeKeyMatch connId pid) = true :=
    List.any_eq_true.mpr ⟨r, hr, hkey⟩
  rw [upsertEmployee, if_pos hmem]
  refine ⟨List.length_map tbl _, ?_⟩
  refine ⟨{ r with
            firstName := d.firstName,
            lastName := d.lastName,
            email := d.email,
            employmentStatus := d.employmentStatus,
            updatedAt := now }, ?_, ?_⟩
  · have := List.mem_map_of_mem
      (fun x => if employeeKeyMatch connId pid x then
        { x with
          firstName := d.firstName,
          lastName := d.lastName,
          email := d.email,
          employmentStatus := d.employmentStatus,
          updatedAt := now }
      else x) hr
    simpa [hkey] using this
  · exact ⟨rfl, rfl, rfl, rfl, rfl, rfl, rfl, rfl, rfl⟩

/-- Witness for the amended claim C6 at the concrete stored row. -/
theorem resync_overwrites_only_update_list_witness :
    (upsertEmployee [storedRow] 1 "e1" refreshedData 9).length
      = [storedRow].length ∧
    ∃ s ∈ upsertEmployee [storedRow] 1 "e1" refreshedData 9,
      s.connectionId = storedRow.connectionId ∧
      s.providerEmployeeId = storedRow.providerEmployeeId ∧
      s.firstName = refreshedData.firstName ∧
      s.lastName = refreshedData.lastName ∧
      s.email = refreshedData.email ∧
      s.employmentStatus = refreshedData.employmentStatus ∧
      s.hireDate = storedRow.hireDate ∧
      s.sourceData = storedRow.sourceData ∧
      s.updatedAt = 9 :=
  resync_overwrites_only_update_list [storedRow] 1 "e1" refreshedData 9
    storedRow (by decide) (by decide) (by decide)
